import Mathlib

/-!
Shallow embedding of `src/report.py` (classes `ReportGenerator` and
`ReportSender`) together with string-analysis functions used to state
properties of the generated HTML document.

Strings are modelled by Lean `String`; the low-level analysis (substring
occurrences, tag extraction) works on `List Char` via `String.data`.
External-library behaviour (pandas `DataFrame.to_html`, plotly express
figures and `Figure.to_html`, smtplib) is modelled explicitly: the plotly
figure is a record capturing exactly the settings the source passes, and
`fig.to_html` is an opaque parameter `figToHtml` of the embedding.
-/

namespace Report

set_option maxRecDepth 200000

set_option maxHeartbeats 2000000

/-! ## Substring occurrence scanner -/

/-! ## HTML escaping (model of the escaping pandas `to_html` applies) -/

/-! ## Basic scanner lemmas -/

/-! ## Escaping lemmas -/

/-! ## Data model

A pandas `DataFrame` is modelled as ordered named columns plus ordered rows;
cell values are kept as the text pandas would render for them. -/

/-! ## plotly model (`create_graph`, source lines 63-93) -/

/-! ## `ReportGenerator.generate_report` (source lines 95-153) -/

/-! ## Filesystem model and the write performed by `generate_report` -/

/-! ## `ReportSender.send_report` (source lines 155-177) -/

/-! ## HTML analysis functions used to state the claims -/

/-- All occurrences of `pat` in `a ++ b` that start inside `a`: for each
position in `a` where `pat` matches (possibly running into `b`), the list
records the text that follows the match. -/
def occsFrom (pat : List Char) : List Char → List Char → List (List Char)
  | [], _ => []
  | c :: a', b =>
    (if pat.isPrefixOf (c :: a' ++ b) then [(c :: a' ++ b).drop pat.length] else [])
      ++ occsFrom pat a' b

/-- All occurrences of `pat` in `s`; each entry is the text following the match. -/
def occsIn (pat s : List Char) : List (List Char) := occsFrom pat s []

/-- The prefix of `s` up to (excluding) the first occurrence of `pat`. -/
def takeUntil (pat : List Char) : List Char → List Char
  | [] => []
  | c :: rest => if pat.isPrefixOf (c :: rest) then [] else c :: takeUntil pat rest

/-- Per-character HTML escaping of `&`, `<`, `>`. -/
def escapeChar (c : Char) : List Char :=
  if c = '&' then '&' :: 'a' :: 'm' :: 'p' :: ';' :: []
  else if c = '<' then '&' :: 'l' :: 't' :: ';' :: []
  else if c = '>' then '&' :: 'g' :: 't' :: ';' :: []
  else [c]

/-- HTML-escape a character list. -/
def escapeL (s : List Char) : List Char := s.flatMap escapeChar

/-- HTML-escape a string (model of pandas cell/header escaping). -/
def escapeHtml (s : String) : String := ⟨escapeL s.data⟩

/-- Inverse of `escapeL`: decode the three entities back to characters. -/
def unescapeL : List Char → List Char
  | [] => []
  | c :: rest =>
    if c = '&' ∧ ['a', 'm', 'p', ';'].isPrefixOf rest = true then '&' :: unescapeL (rest.drop 4)
    else if c = '&' ∧ ['l', 't', ';'].isPrefixOf rest = true then '<' :: unescapeL (rest.drop 3)
    else if c = '&' ∧ ['g', 't', ';'].isPrefixOf rest = true then '>' :: unescapeL (rest.drop 3)
    else c :: unescapeL rest
  termination_by s => s.length
  decreasing_by
    all_goals simp [List.length_drop]
    all_goals omega

/-- `noCrossB pat a = true` means no nonempty suffix of `a` is a proper prefix
of `pat`: an occurrence of `pat` starting inside `a` can then never run past
the end of `a`, whatever text follows. -/
def noCrossB (pat a : List Char) : Bool :=
  a.tails.all fun a' => a'.isEmpty || !(a'.isPrefixOf pat) || decide (pat.length ≤ a'.length)

/-- `pieceNilB pat a = true` certifies that `a` contains no occurrence of `pat`
and no occurrence of `pat` can start in `a` and finish in later text. -/
def pieceNilB (pat a : List Char) : Bool :=
  (occsIn pat a).isEmpty && noCrossB pat a

/-- A string piece containing no occurrence of `pat` and in which none can
start, whatever text follows it. -/
def GoodPiece (pat s : List Char) : Prop := ∀ b, occsFrom pat s b = []

structure DataFrame where
  columns : List String
  rows : List (List String)
deriving DecidableEq

/-- Concatenate a list of strings (Python `+=` accumulation). -/
def joinS : List String → String
  | [] => ""
  | s :: rest => s ++ joinS rest

/-- One table-header cell, as pandas `to_html` renders it (escaped). -/
def thCellHtml (c : String) : String := "      <th>" ++ escapeHtml c ++ "</th>\n"

/-- One table-body cell, as pandas `to_html` renders it (escaped). -/
def tdCellHtml (v : String) : String := "      <td>" ++ escapeHtml v ++ "</td>\n"

/-- One table-body row; `idx` is the row label shown when `index=True`. -/
def trRowHtml (idx : Option Nat) (r : List String) : String :=
  "    <tr>\n"
    ++ (match idx with
        | some i => "      <th>" ++ toString i ++ "</th>\n"
        | none => "")
    ++ joinS (r.map tdCellHtml)
    ++ "    </tr>\n"

/-- Modelled from pandas: `DataFrame.to_html(index=..., classes=...)`. Emits a
`<table class="dataframe <classes>">` with a `<thead>` header row of the column
names and one `<tbody>` row per data row; cell text is HTML-escaped; with
`index=True` a row-label column is prepended. -/
def DataFrame.to_html (df : DataFrame) (index : Bool) (classes : String) : String :=
  "<table border=\"1\" class=\"dataframe " ++ classes
    ++ "\">\n  <thead>\n    <tr style=\"text-align: right;\">\n"
    ++ (if index then "      <th></th>\n" else "")
    ++ joinS (df.columns.map thCellHtml)
    ++ "    </tr>\n  </thead>\n  <tbody>\n"
    ++ joinS (((List.range df.rows.length).zip df.rows).map
        (fun p => trRowHtml (if index then some p.1 else none) p.2))
    ++ "  </tbody>\n</table>"

structure Margin where
  t : Nat
  l : Nat
  r : Nat
  b : Nat
deriving DecidableEq

inductive ChartKind
  | line
  | bar
deriving DecidableEq

/-- The plotly figure state observable through the calls the source makes. -/
structure Figure where
  kind : ChartKind
  data : DataFrame
  x : String
  y : String
  title : String
  titleX : Option ℚ
  margin : Option Margin
  paper_bgcolor : Option String
  plot_bgcolor : Option String
deriving DecidableEq

/-- Errors of the embedding. `nameErrorFig` models the Python `NameError` /
`UnboundLocalError` raised by `fig.update_layout` when `graph_type` matched
neither branch and `fig` was never assigned. `unsupportedChartKind` is the
error name used by the specification's taxonomy; the source never raises it. -/
inductive PyError
  | nameErrorFig
  | unsupportedChartKind
  | missingColumn
  | fileReadError
deriving DecidableEq

/-- Modelled from plotly express: `px.line(data, x=x_col, y=y_col, title=title)`;
raises if `x`/`y` is not a column of `data`. -/
def px_line (data : DataFrame) (x y title : String) : Except PyError Figure :=
  if x ∈ data.columns ∧ y ∈ data.columns then
    .ok { kind := .line
          data := data
          x := x
          y := y
          title := title
          titleX := none
          margin := none
          paper_bgcolor := none
          plot_bgcolor := none }
  else .error .missingColumn

/-- Modelled from plotly express: `px.bar(data, x=x_col, y=y_col, title=title)`. -/
def px_bar (data : DataFrame) (x y title : String) : Except PyError Figure :=
  if x ∈ data.columns ∧ y ∈ data.columns then
    .ok { kind := .bar
          data := data
          x := x
          y := y
          title := title
          titleX := none
          margin := none
          paper_bgcolor := none
          plot_bgcolor := none }
  else .error .missingColumn

/-- The `fig.update_layout(title_x=0.5, margin=dict(t=50, l=20, r=20, b=20),
paper_bgcolor='rgba(0,0,0,0)', plot_bgcolor='rgba(0,0,0,0)')` call of
`create_graph`. -/
def fig_update_layout (fig : Figure) : Figure :=
  { fig with
    titleX := some (1 / 2 : ℚ)
    margin := some ⟨50, 20, 20, 20⟩
    paper_bgcolor := some "rgba(0,0,0,0)"
    plot_bgcolor := some "rgba(0,0,0,0)" }

/-- The figure built by `ReportGenerator.create_graph` (source lines 76-90):
dispatch on `graph_type`, then `update_layout`; any other `graph_type` leaves
`fig` unassigned and the `fig.update_layout` call raises. -/
def create_fig (data : DataFrame) (x_col y_col title graph_type : String) :
    Except PyError Figure :=
  if graph_type = "line" then (px_line data x_col y_col title).map fig_update_layout
  else if graph_type = "bar" then (px_bar data x_col y_col title).map fig_update_layout
  else .error .nameErrorFig

/-- `ReportGenerator.create_graph`: builds the figure and returns
`fig.to_html(full_html=False, include_plotlyjs=True)`, modelled by the opaque
chart serializer `figToHtml`. -/
def create_graph (figToHtml : Figure → String) (data : DataFrame)
    (x_col y_col title graph_type : String) : Except PyError String :=
  (create_fig data x_col y_col title graph_type).map figToHtml

/-- One entry of the input mapping: `{'data': df, 'graph_type': ..., 'x_col': ...,
'y_col': ...}`; `none` models an absent key. -/
structure SectionData where
  data : DataFrame
  graph_type : Option String
  x_col : Option String
  y_col : Option String
deriving DecidableEq

/-- Python truthiness of `section_data.get('x_col')`: both `None` (absent key)
and the empty string are falsy. -/
def truthy : Option String → Bool
  | none => false
  | some s => !s.isEmpty

/-- The input mapping (`data_dict`): Python dicts preserve insertion order. -/
abbrev DataDict := List (String × SectionData)

/-- The `self.style` CSS block of `ReportGenerator.__init__`. -/
def styleHtml : String :=
  "\n        <!--\n        This CSS code is used to style the HTML report\n        -->\n        <style>\n            body \x7b\n                font-family: Arial, sans-serif;\n                margin: 40px;\n                color: #333;\n            \x7d\n            .container \x7b\n                max-width: 1200px;\n                margin: 0 auto;\n            \x7d\n            h1, h2 \x7b\n                color: #2c3e50;\n                padding-bottom: 10px;\n                border-bottom: 2px solid #eee;\n            \x7d\n            .graph-container \x7b\n                margin: 20px 0;\n                padding: 15px;\n                border: 1px solid #ddd;\n                border-radius: 5px;\n            \x7d\n            table \x7b\n                width: 100%;\n                border-collapse: collapse;\n                margin: 20px 0;\n            \x7d\n            th, td \x7b\n                padding: 12px;\n                border: 1px solid #ddd;\n                text-align: left;\n            \x7d\n            th \x7b\n                background-color: #f5f5f5;\n            \x7d\n            tr:nth-child(even) \x7b\n                background-color: #f9f9f9;\n            \x7d\n        </style>\n        "

/-- Document shell up to the generation timestamp (`html_content` initial
f-string, with `{self.style}` inlined). -/
def headerPre : String :=
  "\n        <html>\n        <head>\n            " ++ styleHtml
    ++ "\n        </head>\n        <body>\n            <div class=\"container\">\n                <h1>Business Performance Report</h1>\n                <p>Generated on: "

/-- Document shell right after the timestamp. -/
def headerPost : String := "</p>\n        "

/-- Closing part of the document shell. -/
def footerHtml : String := "\n            </div>\n        </body>\n        </html>\n        "

/-- The chart step of the per-section loop: `if x_col and y_col:` build the
figure via `create_graph` with title = section name and
`graph_type = section_data.get('graph_type', 'line')`. -/
def sectionChart (name : String) (sd : SectionData) : Except PyError (Option Figure) :=
  if truthy sd.x_col && truthy sd.y_col then
    (create_fig sd.data (sd.x_col.getD "") (sd.y_col.getD "") name
      (sd.graph_type.getD "line")).map some
  else .ok none

/-- Section opening (f-string at source lines 122-125, up to the heading text). -/
def secPre : String := "\n                <div class=\"section\">\n                    <h2>"

/-- Section opening after the heading text. -/
def secMid : String := "</h2>\n            "

/-- Chart block before the chart markup (f-string at source lines 129-133). -/
def graphPre : String :=
  "\n                    <div class=\"graph-container\">\n                        "

/-- Chart block after the chart markup. -/
def graphSuf : String := "\n                    </div>\n                "

/-- Table block before the table markup (f-string at source lines 136-141). -/
def tablePre : String :=
  "\n                    <div class=\"table-container\">\n                        "

/-- Table block after the table markup (also closes the section div). -/
def tableSuf : String := "\n                    </div>\n                </div>\n            "

/-- The graph-container markup wrapped around the chart html. -/
def graphContainerHtml (ch : String) : String := graphPre ++ ch ++ graphSuf

/-- The html appended for one section by the loop body of `generate_report`
(source lines 116-141). -/
def sectionHtml (figToHtml : Figure → String) (name : String) (sd : SectionData) :
    Except PyError String :=
  (sectionChart name sd).map fun ofig =>
    secPre ++ name ++ secMid
      ++ (match ofig with
          | some fig => graphContainerHtml (figToHtml fig)
          | none => "")
      ++ tablePre ++ sd.data.to_html false "table" ++ tableSuf

/-- Error-propagating map (a Python `for` loop in which an iteration may raise). -/
def mapME (f : α → Except ε β) : List α → Except ε (List β)
  | [] => .ok []
  | a :: as =>
    match f a with
    | .error e => .error e
    | .ok b =>
      match mapME f as with
      | .error e => .error e
      | .ok bs => .ok (b :: bs)

/-- What a successful `generate_report` call produces: the assembled html, the
Python return value (`return output_path`, line 153), and the input mapping as
it stands after the call (the source never mutates it). -/
structure GenOutput where
  html : String
  ret : String
  dictAfter : DataDict
deriving DecidableEq

/-- The default value of the `output_path` parameter of `generate_report`
(source line 95: `output_path='report.html'`). -/
def defaultOutputPath : String := "report.html"

/-- `ReportGenerator.generate_report(data_dict, output_path)`. `figToHtml`
models `fig.to_html`; `now` is the `datetime.now().strftime('%Y-%m-%d %H:%M')`
timestamp taken at build time. -/
def generate_report (figToHtml : Figure → String) (now : String) (data_dict : DataDict)
    (output_path : String) : Except PyError GenOutput :=
  match mapME (fun p => (sectionHtml figToHtml p.1 p.2).map fun h => (p, h)) data_dict with
  | .error e => .error e
  | .ok parts =>
    .ok { html := headerPre ++ now ++ headerPost ++ joinS (parts.map (·.2)) ++ footerHtml
          ret := output_path
          dictAfter := parts.map (·.1) }

/-- A file on disk, remembering the text encoding it was written with. -/
structure FileWrite where
  path : String
  content : String
  encoding : String
deriving DecidableEq

/-- The filesystem: later writes shadow earlier ones at the same path. -/
abbrev FS := List FileWrite

/-- `open(path, 'w', encoding=enc)` followed by `f.write(content)`: replaces
whatever was at `path`. -/
def fsWrite (fs : FS) (path content encoding : String) : FS :=
  ⟨path, content, encoding⟩ :: fs

/-- Read a file's content, `none` when no file exists at `path`. -/
def fsRead (fs : FS) (path : String) : Option String :=
  (fs.find? (fun w => w.path == path)).map (·.content)

/-- `generate_report` including its filesystem effect: on success the html is
written to `output_path` as UTF-8 (source line 150) and the path is returned;
an exception propagates before any write happens. -/
def generate_run (fs : FS) (figToHtml : Figure → String) (now : String)
    (data_dict : DataDict) (output_path : String) :
    FS × Except PyError String :=
  match generate_report figToHtml now data_dict output_path with
  | .ok out => (fsWrite fs output_path out.html "utf-8", .ok out.ret)
  | .error e => (fs, .error e)

/-- The email message assembled by `send_report` (`MIMEMultipart('alternative')`
with an attached `MIMEText(html, 'html')`). -/
structure MimeMsg where
  subject : String
  msgFrom : String
  msgTo : String
  bodyHtml : String
deriving DecidableEq

/-- Network operations `send_report` can perform, in order. -/
inductive NetAction
  | smtpConnectSSL (host : String) (port : Nat)
  | smtpLogin (user password : String)
  | smtpSendMessage (msg : MimeMsg)
deriving DecidableEq

/-- `ReportSender.send_report`: reads the report file (raising if it does not
exist, before any network traffic), builds the message, then connects to
`smtp.gmail.com:465` over SMTPS, logs in and sends. The returned list is the
trace of network operations performed. -/
def send_report (fs : FS) (sender_email sender_password recipient_email
    subject report_path : String) : List NetAction × Except PyError Unit :=
  match fsRead fs report_path with
  | none => ([], .error .fileReadError)
  | some html =>
    ([.smtpConnectSSL "smtp.gmail.com" 465,
      .smtpLogin sender_email sender_password,
      .smtpSendMessage { subject := subject
                         msgFrom := sender_email
                         msgTo := recipient_email
                         bodyHtml := html }], .ok ())

/-- `<h2>` as characters. -/
def openH2 : List Char := ['<', 'h', '2', '>']

/-- `</h2>` as characters. -/
def closeH2 : List Char := ['<', '/', 'h', '2', '>']

/-- The chart container opening tag emitted by `generate_report`. -/
def graphContainerOpen : String := "<div class=\"graph-container\">"

/-- The texts of the `h2` heading elements of a document, in order. -/
def h2Texts (s : String) : List String :=
  ((occsIn openH2 s.data).map (takeUntil closeH2)).map fun l => String.mk l

/-- Number of chart containers appearing in a document. -/
def graphContainerCount (s : String) : Nat :=
  (occsIn graphContainerOpen.data s.data).length

/-- `<th>` / `</th>` / `<td>` / `</td>` / `<tr>` / `</tr>` as characters. -/
def thOpenL : List Char := ['<', 't', 'h', '>']

def thCloseL : List Char := ['<', '/', 't', 'h', '>']

def tdOpenL : List Char := ['<', 't', 'd', '>']

def tdCloseL : List Char := ['<', '/', 't', 'd', '>']

def trOpenL : List Char := ['<', 't', 'r', '>']

def trCloseL : List Char := ['<', '/', 't', 'r', '>']

/-- The header cells of a rendered table, decoded back to plain text. -/
def headerCells (s : String) : List String :=
  ((occsIn thOpenL s.data).map (takeUntil thCloseL)).map fun l => String.mk (unescapeL l)

/-- The body rows of a rendered table (each a list of decoded cell texts).
Only body rows match: the header row is opened by `<tr style="...">`. -/
def bodyRows (s : String) : List (List String) :=
  ((occsIn trOpenL s.data).map (takeUntil trCloseL)).map fun chunk =>
    ((occsIn tdOpenL chunk).map (takeUntil tdCloseL)).map fun l => String.mk (unescapeL l)

/-! ## Lemmas and theorems -/

theorem occsFrom_append (pat a : List Char) : ∀ b c,
    occsFrom pat (a ++ b) c = occsFrom pat a (b ++ c) ++ occsFrom pat b c := by
  induction a with
  | nil => intro b c; simp [occsFrom]
  | cons x a ih =>
    intro b c
    simp only [List.cons_append, occsFrom, List.append_eq, List.append_assoc]
    rw [ih b c]

theorem occsIn_append (pat a b : List Char) :
    occsIn pat (a ++ b) = occsFrom pat a b ++ occsIn pat b := by
  simpa [occsIn] using occsFrom_append pat a b []

theorem occsFrom_eq_nil_iff (pat : List Char) : ∀ (a b : List Char),
    occsFrom pat a b = [] ↔
      ∀ a', a' <:+ a → a' ≠ [] → pat.isPrefixOf (a' ++ b) = false := by
  intro a
  induction a with
  | nil =>
    intro b
    constructor
    · intro _ a' ha' hne
      exact absurd (List.suffix_nil.mp ha') hne
    · intro _; rfl
  | cons x a ih =>
    intro b
    constructor
    · intro h a' ha' hne
      rcases List.suffix_cons_iff.mp ha' with rfl | ha'
      · simp only [occsFrom] at h
        rcases List.append_eq_nil.mp h with ⟨h1, _⟩
        by_contra hb
        simp only [Bool.not_eq_false] at hb
        simp only [List.cons_append] at h1
        simp at hb
        simp [hb] at h1
      · have h2 : occsFrom pat a b = [] := by
          simp only [occsFrom] at h
          exact (List.append_eq_nil.mp h).2
        exact (ih b).mp h2 a' ha' hne
    · intro h
      have h1 := h (x :: a) (List.suffix_refl _) (by simp)
      have h2 : occsFrom pat a b = [] :=
        (ih b).mpr fun a' ha' hne => h a' (ha'.trans (List.suffix_cons x a)) hne
      simp only [occsFrom, h2, List.append_nil]
      simp only [List.cons_append] at h1
      simp [h1]

theorem occsIn_eq_nil_iff (pat a : List Char) :
    occsIn pat a = [] ↔ ∀ a', a' <:+ a → a' ≠ [] → pat.isPrefixOf a' = false := by
  rw [occsIn, occsFrom_eq_nil_iff]
  constructor
  · intro h a' ha' hne; simpa using h a' ha' hne
  · intro h a' ha' hne; simpa using h a' ha' hne

theorem prefix_of_prefix_append {pat s b : List Char} (h : pat <+: s ++ b)
    (hl : pat.length ≤ s.length) : pat <+: s := by
  rw [List.prefix_iff_eq_take] at h ⊢
  rwa [List.take_append_eq_append_take, Nat.sub_eq_zero_of_le hl, List.take_zero,
    List.append_nil] at h

theorem prefix_append_split {pat s b : List Char} (h : pat <+: s ++ b)
    (hl : s.length ≤ pat.length) : s <+: pat ∧ pat.drop s.length <+: b := by
  rw [List.prefix_iff_eq_take] at h
  rw [List.take_append_eq_append_take, List.take_of_length_le hl] at h
  constructor
  · exact ⟨_, h.symm⟩
  · rw [h, List.drop_left]
    exact List.take_prefix _ _

theorem isPrefixOf_cons_eq_false {p c : Char} {ps t : List Char} (h : p ≠ c) :
    (p :: ps).isPrefixOf (c :: t) = false := by
  rw [Bool.eq_false_iff]
  intro hb
  rw [List.isPrefixOf_iff_prefix, List.cons_prefix_cons] at hb
  exact h hb.1

theorem isPrefixOf_append_self (x y : List Char) : x.isPrefixOf (x ++ y) = true := by
  rw [List.isPrefixOf_iff_prefix]; exact ⟨y, rfl⟩

theorem occsFrom_eq_map_of_noCrossB (pat : List Char) : ∀ (a b : List Char),
    noCrossB pat a = true → occsFrom pat a b = (occsIn pat a).map (· ++ b) := by
  intro a
  induction a with
  | nil => intro b _; simp [occsFrom, occsIn]
  | cons c a ih =>
    intro b hnc
    have hnc' : noCrossB pat a = true := by
      rw [noCrossB, List.all_eq_true] at hnc ⊢
      intro a' ha'
      exact hnc a' (by
        rw [List.mem_tails] at ha' ⊢
        exact ha'.trans (List.suffix_cons c a))
    simp only [occsFrom, occsIn, List.append_nil]
    rw [ih b hnc']
    by_cases hp : pat <+: c :: a
    · have hl : pat.length ≤ (c :: a).length := hp.length_le
      have hp2 : pat <+: c :: a ++ b := by
        simpa using hp.trans (List.prefix_append (c :: a) b)
      have e1 : pat.isPrefixOf (c :: a ++ b) = true := by
        rw [List.isPrefixOf_iff_prefix]; simpa using hp2
      have e2 : pat.isPrefixOf (c :: a) = true := by
        rw [List.isPrefixOf_iff_prefix]; exact hp
      rw [e1, e2]
      simp only [if_true, List.map_append, List.map_cons, List.map_nil]
      congr 1
      have : (c :: a) ++ b = c :: a ++ b := by simp
      rw [← this, List.drop_append_eq_append_drop, Nat.sub_eq_zero_of_le hl, List.drop_zero]
    · have e2 : pat.isPrefixOf (c :: a) = false := by
        rw [Bool.eq_false_iff]
        intro hc
        exact hp (List.isPrefixOf_iff_prefix.mp hc)
      have e1 : pat.isPrefixOf (c :: a ++ b) = false := by
        rw [Bool.eq_false_iff]
        intro hc
        have hc' : pat <+: (c :: a) ++ b := by
          simpa using List.isPrefixOf_iff_prefix.mp hc
        rcases Nat.le_total pat.length (c :: a).length with hl | hl
        · exact hp (prefix_of_prefix_append hc' hl)
        · rcases prefix_append_split hc' hl with ⟨h1, h2⟩
          have := hnc
          rw [noCrossB, List.all_eq_true] at this
          have h3 := this (c :: a) (by rw [List.mem_tails])
          simp only [List.isEmpty_cons, Bool.false_or, Bool.or_eq_true,
            Bool.not_eq_true', decide_eq_true_eq] at h3
          rcases h3 with h3 | h3
          · rw [Bool.eq_false_iff] at h3
            exact h3 (List.isPrefixOf_iff_prefix.mpr h1)
          · have : pat.length = (c :: a).length := Nat.le_antisymm h3 hl
            have hfull : pat = c :: a := by
              rw [List.prefix_iff_eq_take] at h1
              rw [h1, ← this, List.take_length]
            exact hp (hfull ▸ List.prefix_refl _)
      rw [e1, e2]
      simp only [Bool.false_eq_true, if_false, List.nil_append]
      rfl

theorem occsFrom_eq_nil_of_pieceNilB {pat a : List Char} (h : pieceNilB pat a = true)
    (b : List Char) : occsFrom pat a b = [] := by
  rw [pieceNilB, Bool.and_eq_true] at h
  rw [occsFrom_eq_map_of_noCrossB pat a b h.2]
  rw [List.isEmpty_iff] at h
  rw [h.1]
  rfl

theorem occsFrom_eq_nil_of_head {pat : List Char} {c : Char} (hc : pat.head? = some c) :
    ∀ (a b : List Char), c ∉ a → occsFrom pat a b = [] := by
  intro a b hmem
  rw [occsFrom_eq_nil_iff]
  intro a' ha' hne
  rcases List.exists_cons_of_ne_nil hne with ⟨d, rest, rfl⟩
  rcases pat with _ | ⟨p, pr⟩
  · simp at hc
  · have hpc : p = c := by simpa using hc
    subst hpc
    have hd : d ∈ a := ha'.mem (by simp)
    have hne2 : p ≠ d := fun h => hmem (h ▸ hd)
    simpa using @isPrefixOf_cons_eq_false p d pr (rest ++ b) hne2

theorem occsFrom_self {pat : List Char} (h1 : occsIn pat pat = [[]])
    (h2 : noCrossB pat pat = true) (b : List Char) : occsFrom pat pat b = [b] := by
  rw [occsFrom_eq_map_of_noCrossB pat pat b h2, h1]
  simp

theorem takeUntil_append_of_occsFrom_nil (pat : List Char) : ∀ (x m : List Char),
    occsFrom pat x m = [] → takeUntil pat (x ++ m) = x ++ takeUntil pat m := by
  intro x
  induction x with
  | nil => intro m _; simp
  | cons c x ih =>
    intro m h
    simp only [occsFrom] at h
    rcases List.append_eq_nil.mp h with ⟨h1, h2⟩
    have hcond : pat.isPrefixOf (c :: (x ++ m)) = false := by
      by_contra hb
      simp only [Bool.not_eq_false] at hb
      simp only [List.cons_append] at h1
      simp at hb
      simp [hb] at h1
    simp only [List.cons_append, takeUntil, List.append_eq]
    rw [hcond]
    simp [ih m h2]

theorem takeUntil_of_isPrefixOf {pat m : List Char} (hne : pat ≠ [])
    (h : pat.isPrefixOf m = true) : takeUntil pat m = [] := by
  rcases m with _ | ⟨c, rest⟩
  · rcases pat with _ | ⟨p, pr⟩
    · exact absurd rfl hne
    · simp [List.isPrefixOf] at h
  · simp [takeUntil, h]

theorem isPrefixOf_append_left {pat x : List Char} (y : List Char)
    (h : pat.isPrefixOf x = true) : pat.isPrefixOf (x ++ y) = true := by
  rw [List.isPrefixOf_iff_prefix] at h ⊢
  exact h.trans (List.prefix_append x y)

theorem lt_not_mem_escapeChar (d : Char) : '<' ∉ escapeChar d := by
  rcases eq_or_ne d '&' with rfl | h1
  · decide
  rcases eq_or_ne d '<' with rfl | h2
  · decide
  rcases eq_or_ne d '>' with rfl | h3
  · decide
  simp only [escapeChar, if_neg h1, if_neg h2, if_neg h3, List.mem_singleton]
  exact Ne.symm h2

theorem lt_not_mem_escapeL (s : List Char) : '<' ∉ escapeL s := by
  induction s with
  | nil => simp [escapeL]
  | cons d s ih =>
    intro h
    simp only [escapeL, List.flatMap_cons, List.mem_append] at h
    rcases h with h' | h'
    · exact lt_not_mem_escapeChar d h'
    · exact ih h'

theorem unescape_escape (s : List Char) : unescapeL (escapeL s) = s := by
  induction s with
  | nil => simp [escapeL, unescapeL]
  | cons c s ih =>
    have hstep : escapeL (c :: s) = escapeChar c ++ escapeL s := by
      simp [escapeL]
    rcases eq_or_ne c '&' with rfl | h1
    · rw [hstep, show escapeChar '&' = ['&', 'a', 'm', 'p', ';'] from rfl,
        show ['&', 'a', 'm', 'p', ';'] ++ escapeL s
          = '&' :: ('a' :: 'm' :: 'p' :: ';' :: escapeL s) from rfl, unescapeL]
      rw [if_pos ⟨rfl, isPrefixOf_append_self ['a', 'm', 'p', ';'] (escapeL s)⟩]
      simp only [List.drop_succ_cons, List.drop_zero]
      rw [ih]
    · rcases eq_or_ne c '<' with rfl | h2
      · rw [hstep, show escapeChar '<' = ['&', 'l', 't', ';'] from rfl,
          show ['&', 'l', 't', ';'] ++ escapeL s
            = '&' :: ('l' :: 't' :: ';' :: escapeL s) from rfl, unescapeL]
        rw [if_neg (by
          rintro ⟨-, hb⟩
          rw [isPrefixOf_cons_eq_false (by decide)] at hb
          exact absurd hb (by decide))]
        rw [if_pos ⟨rfl, isPrefixOf_append_self ['l', 't', ';'] (escapeL s)⟩]
        simp only [List.drop_succ_cons, List.drop_zero]
        rw [ih]
      · rcases eq_or_ne c '>' with rfl | h3
        · rw [hstep, show escapeChar '>' = ['&', 'g', 't', ';'] from rfl,
            show ['&', 'g', 't', ';'] ++ escapeL s
              = '&' :: ('g' :: 't' :: ';' :: escapeL s) from rfl, unescapeL]
          rw [if_neg (by
            rintro ⟨-, hb⟩
            rw [isPrefixOf_cons_eq_false (by decide)] at hb
            exact absurd hb (by decide))]
          rw [if_neg (by
            rintro ⟨-, hb⟩
            rw [isPrefixOf_cons_eq_false (by decide)] at hb
            exact absurd hb (by decide))]
          rw [if_pos ⟨rfl, isPrefixOf_append_self ['g', 't', ';'] (escapeL s)⟩]
          simp only [List.drop_succ_cons, List.drop_zero]
          rw [ih]
        · have hchar : escapeChar c = [c] := by
            simp [escapeChar, if_neg h1, if_neg h2, if_neg h3]
          rw [hstep, hchar, show [c] ++ escapeL s = c :: escapeL s from rfl, unescapeL]
          rw [if_neg (fun hb => h1 hb.1), if_neg (fun hb => h1 hb.1),
            if_neg (fun hb => h1 hb.1)]
          rw [ih]

/-! ## Good-piece infrastructure -/

theorem goodPiece_nil (pat : List Char) : GoodPiece pat [] := fun _ => rfl

theorem goodPiece_of_pieceNilB {pat a : List Char} (h : pieceNilB pat a = true) :
    GoodPiece pat a := fun b => occsFrom_eq_nil_of_pieceNilB h b

theorem goodPiece_of_head {pat a : List Char} {c : Char} (hc : pat.head? = some c)
    (hmem : c ∉ a) : GoodPiece pat a := fun b => occsFrom_eq_nil_of_head hc a b hmem

theorem goodPiece_append {pat a b : List Char} (ha : GoodPiece pat a)
    (hb : GoodPiece pat b) : GoodPiece pat (a ++ b) := by
  intro c
  rw [occsFrom_append, ha (b ++ c), hb c]
  rfl

theorem occsFrom_goodPiece_append {pat a b c : List Char} (ha : GoodPiece pat a) :
    occsFrom pat (a ++ b) c = occsFrom pat b c := by
  rw [occsFrom_append, ha (b ++ c)]
  rfl

theorem joinS_data : ∀ l : List String, (joinS l).data = (l.map String.data).flatten := by
  intro l
  induction l with
  | nil => rfl
  | cons s r ih => simp [joinS, String.data_append, ih]

theorem goodPiece_joinS {pat : List Char} {l : List String}
    (h : ∀ s ∈ l, GoodPiece pat s.data) : GoodPiece pat (joinS l).data := by
  induction l with
  | nil => exact goodPiece_nil pat
  | cons s r ih =>
    have : (joinS (s :: r)).data = s.data ++ (joinS r).data := by
      simp [joinS, String.data_append]
    rw [this]
    exact goodPiece_append (h s (by simp)) (ih fun t ht => h t (by simp [ht]))

/-! ## Decomposition of the rendered table -/

theorem to_html_false_decomp (df : DataFrame) (classes : String) :
    df.to_html false classes
      = "<table border=\"1\" class=\"dataframe " ++ classes
        ++ "\">\n  <thead>\n    <tr style=\"text-align: right;\">\n"
        ++ joinS (df.columns.map thCellHtml)
        ++ "    </tr>\n  </thead>\n  <tbody>\n"
        ++ joinS (df.rows.map (trRowHtml none))
        ++ "  </tbody>\n</table>" := by
  have hz : ∀ (rows : List (List String)) (ns : List Nat), rows.length ≤ ns.length →
      (ns.zip rows).map (fun p => trRowHtml none p.2) = rows.map (trRowHtml none) := by
    intro rows
    induction rows with
    | nil => intro ns _; simp
    | cons r rest ih =>
      intro ns hns
      cases ns with
      | nil => simp at hns
      | cons n ns' =>
        simp only [List.zip_cons_cons, List.map_cons]
        rw [ih ns' (by simpa using hns)]
  unfold DataFrame.to_html
  rw [if_neg (by simp)]
  rw [show (fun p : Nat × List String => trRowHtml (if false = true then some p.1 else none) p.2)
        = (fun p : Nat × List String => trRowHtml none p.2) from by
      funext p; rw [if_neg (by simp)]]
  rw [hz df.rows (List.range df.rows.length) (by simp)]
  simp

theorem goodPiece_table_of (pat : List Char)
    (hhead : pat.head? = some '<')
    (hA1 : pieceNilB pat "<table border=\"1\" class=\"dataframe ".data = true)
    (hA2 : pieceNilB pat "table".data = true)
    (hA3 : pieceNilB pat "\">\n  <thead>\n    <tr style=\"text-align: right;\">\n".data
      = true)
    (hTh1 : pieceNilB pat "      <th>".data = true)
    (hTh2 : pieceNilB pat "</th>\n".data = true)
    (hB : pieceNilB pat "    </tr>\n  </thead>\n  <tbody>\n".data = true)
    (hTr1 : pieceNilB pat "    <tr>\n".data = true)
    (hTd1 : pieceNilB pat "      <td>".data = true)
    (hTd2 : pieceNilB pat "</td>\n".data = true)
    (hTr2 : pieceNilB pat "    </tr>\n".data = true)
    (hC : pieceNilB pat "  </tbody>\n</table>".data = true)
    (df : DataFrame) : GoodPiece pat (df.to_html false "table").data := by
  rw [to_html_false_decomp df "table"]
  simp only [String.data_append, List.append_assoc]
  refine goodPiece_append (goodPiece_of_pieceNilB hA1) ?_
  refine goodPiece_append (goodPiece_of_pieceNilB hA2) ?_
  refine goodPiece_append (goodPiece_of_pieceNilB hA3) ?_
  refine goodPiece_append ?_ ?_
  · refine goodPiece_joinS ?_
    intro s hs
    rcases List.mem_map.mp hs with ⟨c, -, rfl⟩
    have : (thCellHtml c).data = "      <th>".data ++ ((escapeHtml c).data ++ "</th>\n".data) := by
      simp [thCellHtml, String.data_append]
    rw [this]
    exact goodPiece_append (goodPiece_of_pieceNilB hTh1)
      (goodPiece_append (goodPiece_of_head hhead (lt_not_mem_escapeL c.data))
        (goodPiece_of_pieceNilB hTh2))
  refine goodPiece_append (goodPiece_of_pieceNilB hB) ?_
  refine goodPiece_append ?_ (goodPiece_of_pieceNilB hC)
  refine goodPiece_joinS ?_
  intro s hs
  rcases List.mem_map.mp hs with ⟨r, -, rfl⟩
  have : (trRowHtml none r).data
      = "    <tr>\n".data ++ ((joinS (r.map tdCellHtml)).data ++ "    </tr>\n".data) := by
    simp [trRowHtml, String.data_append]
  rw [this]
  refine goodPiece_append (goodPiece_of_pieceNilB hTr1) ?_
  refine goodPiece_append ?_ (goodPiece_of_pieceNilB hTr2)
  refine goodPiece_joinS ?_
  intro t ht
  rcases List.mem_map.mp ht with ⟨v, -, rfl⟩
  have : (tdCellHtml v).data = "      <td>".data ++ ((escapeHtml v).data ++ "</td>\n".data) := by
    simp [tdCellHtml, String.data_append]
  rw [this]
  exact goodPiece_append (goodPiece_of_pieceNilB hTd1)
    (goodPiece_append (goodPiece_of_head hhead (lt_not_mem_escapeL v.data))
      (goodPiece_of_pieceNilB hTd2))



/-! ## Inversion helpers for `mapME` and `generate_report` -/

theorem not_isOk_error {ε α : Type} (e : ε) : (Except.error e : Except ε α).isOk ≠ true := by
  simp [Except.isOk, Except.toBool]

theorem mapME_cons_error {α β ε : Type} (f : α → Except ε β) (a : α) (l : List α)
    {e : ε} (hf : f a = .error e) : mapME f (a :: l) = .error e := by
  simp only [mapME, hf]

theorem mapME_cons_ok {α β ε : Type} (f : α → Except ε β) (a : α) (l : List α)
    {b : β} (hf : f a = .ok b) :
    mapME f (a :: l) = (mapME f l).map (fun bs => b :: bs) := by
  cases hm : mapME f l with
  | error e => simp only [mapME, hf, hm]; rfl
  | ok bs => simp only [mapME, hf, hm]; rfl

theorem mapME_ok_cons {α β ε : Type} (f : α → Except ε β) (a : α) (l : List α)
    (parts : List β) (h : mapME f (a :: l) = .ok parts) :
    ∃ b bs, f a = .ok b ∧ mapME f l = .ok bs ∧ parts = b :: bs := by
  cases hf : f a with
  | error e =>
    rw [mapME_cons_error f a l hf] at h
    exact Except.noConfusion h
  | ok b =>
    cases hm : mapME f l with
    | error e =>
      rw [mapME_cons_ok f a l hf, hm] at h
      exact Except.noConfusion h
    | ok bs =>
      rw [mapME_cons_ok f a l hf, hm] at h
      simp only [Except.map, Except.ok.injEq] at h
      exact ⟨b, bs, rfl, rfl, h.symm⟩

theorem mapME_pairs_fst {α β ε : Type} (f : α → Except ε (α × β))
    (hf : ∀ a b, f a = .ok b → b.1 = a) :
    ∀ (l : List α) (parts : List (α × β)),
      mapME f l = .ok parts → parts.map Prod.fst = l := by
  intro l
  induction l with
  | nil =>
    intro parts h
    simp only [mapME, Except.ok.injEq] at h
    rw [← h]
    rfl
  | cons a l ih =>
    intro parts h
    rcases mapME_ok_cons _ a l parts h with ⟨b, bs, hfa, hm, rfl⟩
    simp only [List.map_cons]
    rw [hf a b hfa, ih bs hm]

theorem mapME_mem_ok {α β ε : Type} (f : α → Except ε β) :
    ∀ (l : List α) (parts : List β),
      mapME f l = .ok parts → ∀ a ∈ l, ∃ b, f a = .ok b ∧ b ∈ parts := by
  intro l
  induction l with
  | nil => intro parts _ a ha; simp at ha
  | cons x l ih =>
    intro parts h a ha
    rcases mapME_ok_cons _ x l parts h with ⟨b, bs, hfa, hm, rfl⟩
    rcases List.mem_cons.mp ha with rfl | ha'
    · exact ⟨b, hfa, List.mem_cons_self _ _⟩
    · rcases ih bs hm a ha' with ⟨b', hb', hmem⟩
      exact ⟨b', hb', List.mem_cons_of_mem _ hmem⟩

theorem generate_report_ok_inv (figToHtml : Figure → String) (now : String)
    (dict : DataDict) (path : String) (out : GenOutput)
    (hok : generate_report figToHtml now dict path = .ok out) :
    ∃ parts : List ((String × SectionData) × String),
      mapME (fun p => (sectionHtml figToHtml p.1 p.2).map fun h => (p, h)) dict
        = .ok parts ∧
      out.html = headerPre ++ now ++ headerPost ++ joinS (parts.map (·.2)) ++ footerHtml ∧
      out.ret = path ∧ out.dictAfter = parts.map (·.1) := by
  unfold generate_report at hok
  cases hm : mapME (fun p => (sectionHtml figToHtml p.1 p.2).map fun h => (p, h)) dict with
  | error e => rw [hm] at hok; exact absurd hok (by simp)
  | ok parts =>
    rw [hm] at hok
    simp only [Except.ok.injEq] at hok
    cases hok
    exact ⟨parts, rfl, rfl, rfl, rfl⟩

/-! ## Error behaviour of a section with an unrecognized chart kind -/

theorem sectionHtml_bad_kind_error (figToHtml : Figure → String) (name : String)
    (sd : SectionData) (h1 : truthy sd.x_col = true) (h2 : truthy sd.y_col = true)
    (h3 : sd.graph_type.getD "line" ≠ "line") (h4 : sd.graph_type.getD "line" ≠ "bar") :
    sectionHtml figToHtml name sd = .error .nameErrorFig := by
  simp [sectionHtml, sectionChart, h1, h2, create_fig, h3, h4, Except.map]

theorem sectionHtml_error_kind (figToHtml : Figure → String) (name : String)
    (sd : SectionData) (e : PyError)
    (hcols : truthy sd.x_col = true → truthy sd.y_col = true →
      sd.x_col.getD "" ∈ sd.data.columns ∧ sd.y_col.getD "" ∈ sd.data.columns)
    (herr : sectionHtml figToHtml name sd = .error e) : e = .nameErrorFig := by
  by_cases hx : truthy sd.x_col = true
  · by_cases hy : truthy sd.y_col = true
    · rcases hcols hx hy with ⟨hxc, hyc⟩
      by_cases hg : sd.graph_type.getD "line" = "line"
      · simp [sectionHtml, sectionChart, hx, hy, create_fig, hg, px_line, hxc, hyc,
          Except.map] at herr
      · by_cases hg2 : sd.graph_type.getD "line" = "bar"
        · simp [sectionHtml, sectionChart, hx, hy, create_fig, hg, hg2, px_bar, hxc, hyc,
            Except.map] at herr
        · have := sectionHtml_bad_kind_error figToHtml name sd hx hy hg hg2
          rw [this] at herr
          simp only [Except.error.injEq] at herr
          exact herr.symm
    · simp only [Bool.not_eq_true] at hy
      simp [sectionHtml, sectionChart, hy, Except.map] at herr
  · simp only [Bool.not_eq_true] at hx
    simp [sectionHtml, sectionChart, hx, Except.map] at herr

theorem mapME_sections_nameError (figToHtml : Figure → String) :
    ∀ dict : DataDict,
      (∀ p ∈ dict, truthy p.2.x_col = true → truthy p.2.y_col = true →
        p.2.x_col.getD "" ∈ p.2.data.columns ∧ p.2.y_col.getD "" ∈ p.2.data.columns) →
      (∃ p ∈ dict, truthy p.2.x_col = true ∧ truthy p.2.y_col = true ∧
        p.2.graph_type.getD "line" ≠ "line" ∧ p.2.graph_type.getD "line" ≠ "bar") →
      mapME (fun p => (sectionHtml figToHtml p.1 p.2).map fun h => (p, h)) dict
        = .error .nameErrorFig := by
  intro dict
  induction dict with
  | nil => intro _ hbad; simp at hbad
  | cons a l ih =>
    intro hcols hbad
    cases hsec : sectionHtml figToHtml a.1 a.2 with
    | error e =>
      have he : e = .nameErrorFig :=
        sectionHtml_error_kind figToHtml a.1 a.2 e (hcols a (by simp)) hsec
      subst he
      exact mapME_cons_error _ a l (by simp only [hsec, Except.map])
    | ok s =>
      rcases hbad with ⟨p, hp, hbadp⟩
      rcases List.mem_cons.mp hp with rfl | hp'
      · have hbd := sectionHtml_bad_kind_error figToHtml p.1 p.2 hbadp.1 hbadp.2.1
          hbadp.2.2.1 hbadp.2.2.2
        rw [hbd] at hsec
        exact absurd hsec (by simp)
      · have hrec := ih (fun q hq => hcols q (by simp [hq])) ⟨p, hp', hbadp⟩
        rw [mapME_cons_ok _ a l (by simp only [hsec, Except.map] : _ = Except.ok (a, s)),
          hrec]
        rfl

/-! ## Claim theorems (error handling, return value, frame, chart layout) -/

/-- C4 (corrected): a section whose `graph_type` is neither `line` nor `bar`
(with both chart columns present and non-empty, and chart columns existing in
the tables) makes the build fail — but with the modelled Python `NameError`
(`fig` never assigned), not with an `UnsupportedChartKind` error — and no
output file is written. -/
theorem claim_C4_bad_kind_fails_no_write (fs : FS) (figToHtml : Figure → String)
    (now path : String) (dict : DataDict)
    (hcols : ∀ p ∈ dict, truthy p.2.x_col = true → truthy p.2.y_col = true →
      p.2.x_col.getD "" ∈ p.2.data.columns ∧ p.2.y_col.getD "" ∈ p.2.data.columns)
    (hbad : ∃ p ∈ dict, truthy p.2.x_col = true ∧ truthy p.2.y_col = true ∧
      p.2.graph_type.getD "line" ≠ "line" ∧ p.2.graph_type.getD "line" ≠ "bar") :
    generate_report figToHtml now dict path = .error .nameErrorFig ∧
    generate_run fs figToHtml now dict path = (fs, .error .nameErrorFig) := by
  have herr := mapME_sections_nameError figToHtml dict hcols hbad
  constructor
  · unfold generate_report
    rw [herr]
  · unfold generate_run generate_report
    rw [herr]

/-- C4 witness: one section with `graph_type = 'scatter'` and both columns set. -/
theorem claim_C4_bad_kind_fails_no_write_witness :
    generate_report (fun _ => "") "2026-10-12 00:00"
        [("S", ⟨⟨["x", "y"], []⟩, some "scatter", some "x", some "y"⟩)] "report.html"
      = .error .nameErrorFig ∧
    generate_run [] (fun _ => "") "2026-10-12 00:00"
        [("S", ⟨⟨["x", "y"], []⟩, some "scatter", some "x", some "y"⟩)] "report.html"
      = ([], .error .nameErrorFig) :=
  claim_C4_bad_kind_fails_no_write [] (fun _ => "") "2026-10-12 00:00" "report.html"
    [("S", ⟨⟨["x", "y"], []⟩, some "scatter", some "x", some "y"⟩)]
    (by decide) (by decide)

/-- C4 counterexample: the failure is the modelled `NameError`, not an
`UnsupportedChartKind` error, so the claim as stated is false. -/
theorem claim_C4_cex :
    generate_report (fun _ => "") "2026-10-12 00:00"
        [("S", ⟨⟨["x", "y"], []⟩, some "scatter", some "x", some "y"⟩)] "report.html"
      = .error .nameErrorFig ∧ PyError.nameErrorFig ≠ PyError.unsupportedChartKind :=
  ⟨rfl, by decide⟩

/-- C5 (corrected): on success `generate_report` returns the output path; the
html string is persisted but not returned. -/
theorem claim_C5_returns_path (figToHtml : Figure → String) (now : String)
    (dict : DataDict) (path : String) (out : GenOutput)
    (hok : generate_report figToHtml now dict path = .ok out) :
    out.ret = path := by
  rcases generate_report_ok_inv figToHtml now dict path out hok with ⟨parts, -, -, hret, -⟩
  exact hret

/-- C5 witness: on the empty mapping the returned value is the output path. -/
theorem claim_C5_returns_path_witness :
    (generate_report (fun _ => "") "2026-10-12 00:00" [] "report.html").toOption.map
      GenOutput.ret = some "report.html" := by
  cases hok : generate_report (fun _ => "") "2026-10-12 00:00" [] "report.html" with
  | error e =>
    have hsome : (generate_report (fun _ => "") "2026-10-12 00:00" [] "report.html").isOk
        = true := by decide
    rw [hok] at hsome
    exact absurd hsome (not_isOk_error e)
  | ok out =>
    simp [Except.toOption,
      claim_C5_returns_path (fun _ => "") "2026-10-12 00:00" [] "report.html" out hok]

/-- C5 counterexample: the returned value differs from the html document, so
"returns the full HTML string" is false as stated. -/
theorem claim_C5_cex :
    (generate_report (fun _ => "") "2026-10-12 00:00" [] "report.html").toOption.map
      (fun o => o.ret == o.html) = some false := by decide

/-- C6 (confirmed): sending with a `report_path` at which no file exists fails
with the file-read error, and the network trace is empty: no SMTP connection is
attempted before the failure. -/
theorem claim_C6_missing_file_no_network (fs : FS) (sender_email sender_password
    recipient_email subject report_path : String)
    (h : fsRead fs report_path = none) :
    send_report fs sender_email sender_password recipient_email subject report_path
      = ([], .error .fileReadError) := by
  simp [send_report, h]

/-- C6 witness: empty filesystem. -/
theorem claim_C6_missing_file_no_network_witness :
    send_report [] "sender@example.com" "pw" "to@example.com" "Report" "report.html"
      = ([], .error .fileReadError) :=
  claim_C6_missing_file_no_network [] "sender@example.com" "pw" "to@example.com"
    "Report" "report.html" rfl

/-- C7 (confirmed): on success the rendered html is persisted at `output_path`
with encoding utf-8, shadowing (overwriting) any previous file at that path;
the call returns the path, and omitting `output_path` defaults it to
`report.html`. -/
theorem claim_C7_persists_utf8_overwrite (fs : FS) (figToHtml : Figure → String)
    (now path : String) (dict : DataDict) (out : GenOutput)
    (hok : generate_report figToHtml now dict path = .ok out) :
    (generate_run fs figToHtml now dict path).1 = fsWrite fs path out.html "utf-8" ∧
    fsRead (generate_run fs figToHtml now dict path).1 path = some out.html ∧
    (∀ old enc0, fsRead (generate_run (fsWrite fs path old enc0)
        figToHtml now dict path).1 path = some out.html) ∧
    (generate_run fs figToHtml now dict path).2 = .ok path ∧
    defaultOutputPath = "report.html" := by
  have hret : out.ret = path :=
    (generate_report_ok_inv figToHtml now dict path out hok).choose_spec.2.2.1
  refine ⟨?_, ?_, ?_, ?_, rfl⟩
  · unfold generate_run
    rw [hok]
  · unfold generate_run
    rw [hok]
    simp [fsRead, fsWrite, List.find?]
  · intro old enc0
    unfold generate_run
    rw [hok]
    simp [fsRead, fsWrite, List.find?]
  · unfold generate_run
    rw [hok]
    show Except.ok out.ret = Except.ok path
    rw [hret]

/-- C7 witness: empty mapping, empty filesystem. -/
theorem claim_C7_persists_utf8_overwrite_witness :
    ∃ out, generate_report (fun _ => "") "2026-10-12 00:00" [] "report.html" = .ok out ∧
      fsRead (generate_run [] (fun _ => "") "2026-10-12 00:00" [] "report.html").1
        "report.html" = some out.html ∧
      (generate_run [] (fun _ => "") "2026-10-12 00:00" [] "report.html").2
        = .ok "report.html" := by
  cases hok : generate_report (fun _ => "") "2026-10-12 00:00" [] "report.html" with
  | error e =>
    have hsome : (generate_report (fun _ => "") "2026-10-12 00:00" [] "report.html").isOk
        = true := by decide
    rw [hok] at hsome
    exact absurd hsome (not_isOk_error e)
  | ok out =>
    refine ⟨out, rfl, ?_, ?_⟩
    · exact (claim_C7_persists_utf8_overwrite [] (fun _ => "") "2026-10-12 00:00"
        "report.html" [] out hok).2.1
    · exact (claim_C7_persists_utf8_overwrite [] (fun _ => "") "2026-10-12 00:00"
        "report.html" [] out hok).2.2.2.1

/-- C8 (confirmed): a chart created with kind `line` or `bar` plots `y_col`
against `x_col` from the given data with the requested kind; the title is the
given one, centered (`title_x = 0.5`); both backgrounds are transparent
(`rgba(0,0,0,0)`); the margins are top 50, left 20, right 20, bottom 20. -/
theorem claim_C8_chart_layout (figToHtml : Figure → String) (data : DataFrame)
    (x_col y_col title graph_type : String)
    (hkind : graph_type = "line" ∨ graph_type = "bar")
    (hx : x_col ∈ data.columns) (hy : y_col ∈ data.columns) :
    ∃ fig, create_fig data x_col y_col title graph_type = .ok fig ∧
      create_graph figToHtml data x_col y_col title graph_type = .ok (figToHtml fig) ∧
      (graph_type = "line" → fig.kind = .line) ∧
      (graph_type = "bar" → fig.kind = .bar) ∧
      fig.data = data ∧ fig.x = x_col ∧ fig.y = y_col ∧ fig.title = title ∧
      fig.titleX = some (1 / 2 : ℚ) ∧
      fig.paper_bgcolor = some "rgba(0,0,0,0)" ∧
      fig.plot_bgcolor = some "rgba(0,0,0,0)" ∧
      fig.margin = some ⟨50, 20, 20, 20⟩ := by
  rcases hkind with rfl | rfl
  · refine ⟨fig_update_layout ⟨.line, data, x_col, y_col, title, none, none, none, none⟩,
      ?_, ?_, fun _ => rfl, fun hbar => absurd hbar (by decide),
      rfl, rfl, rfl, rfl, rfl, rfl, rfl, rfl⟩
    · simp [create_fig, px_line, hx, hy, Except.map]
    · simp [create_graph, create_fig, px_line, hx, hy, Except.map]
  · refine ⟨fig_update_layout ⟨.bar, data, x_col, y_col, title, none, none, none, none⟩,
      ?_, ?_, fun hline => absurd hline (by decide), fun _ => rfl,
      rfl, rfl, rfl, rfl, rfl, rfl, rfl, rfl⟩
    · simp [create_fig, px_bar, hx, hy, Except.map]
    · simp [create_graph, create_fig, px_bar, hx, hy, Except.map]

/-- C8 witness: line chart over the Date/Revenue example. -/
theorem claim_C8_chart_layout_witness :
    ∃ fig, create_fig ⟨["Date", "Revenue"], []⟩ "Date" "Revenue" "Sales" "line" = .ok fig ∧
      create_graph (fun _ => "") ⟨["Date", "Revenue"], []⟩ "Date" "Revenue" "Sales" "line"
        = .ok ((fun _ => "") fig) ∧
      ("line" = "line" → fig.kind = .line) ∧
      ("line" = "bar" → fig.kind = .bar) ∧
      fig.data = ⟨["Date", "Revenue"], []⟩ ∧ fig.x = "Date" ∧ fig.y = "Revenue" ∧
      fig.title = "Sales" ∧ fig.titleX = some (1 / 2 : ℚ) ∧
      fig.paper_bgcolor = some "rgba(0,0,0,0)" ∧
      fig.plot_bgcolor = some "rgba(0,0,0,0)" ∧
      fig.margin = some ⟨50, 20, 20, 20⟩ :=
  claim_C8_chart_layout (fun _ => "") ⟨["Date", "Revenue"], []⟩ "Date" "Revenue" "Sales"
    "line" (Or.inl rfl) (by decide) (by decide)

/-- C9 (corrected): when both chart columns are present and non-empty and there
is no `graph_type` entry, the section's chart defaults to a line chart. -/
theorem claim_C9_default_line (name : String) (sd : SectionData)
    (hgt : sd.graph_type = none)
    (hx : truthy sd.x_col = true) (hy : truthy sd.y_col = true)
    (hxc : sd.x_col.getD "" ∈ sd.data.columns) (hyc : sd.y_col.getD "" ∈ sd.data.columns) :
    ∃ fig, sectionChart name sd = .ok (some fig) ∧ fig.kind = .line := by
  refine ⟨fig_update_layout ⟨.line, sd.data, sd.x_col.getD "", sd.y_col.getD "", name,
    none, none, none, none⟩, ?_, rfl⟩
  simp [sectionChart, hx, hy, hgt, create_fig, px_line, hxc, hyc, Except.map]

/-- C9 witness. -/
theorem claim_C9_default_line_witness :
    ∃ fig, sectionChart "Sales"
        ⟨⟨["Date", "Revenue"], []⟩, none, some "Date", some "Revenue"⟩ = .ok (some fig) ∧
      fig.kind = .line :=
  claim_C9_default_line "Sales" ⟨⟨["Date", "Revenue"], []⟩, none, some "Date", some "Revenue"⟩
    rfl (by decide) (by decide) (by decide) (by decide)

/-- C9 counterexample: `x_col` present as the empty string (and no
`graph_type`): no chart is produced at all, contradicting the claim that a line
chart is rendered whenever both keys are present. -/
theorem claim_C9_cex :
    ¬ ∃ fig, sectionChart "S" ⟨⟨["", "y"], []⟩, none, some "", some "y"⟩
        = .ok (some fig) := by
  have h0 : sectionChart "S" ⟨⟨["", "y"], []⟩, none, some "", some "y"⟩ = .ok none := rfl
  rintro ⟨fig, h⟩
  rw [h0] at h
  simp at h

/-- C10 (confirmed): `generate_report` does not modify its input mapping: the
mapping threaded through the loop is returned unchanged (the source reads, but
never writes, `data_dict`, its sections and their tables). -/
theorem claim_C10_input_unchanged (figToHtml : Figure → String) (now : String)
    (dict : DataDict) (path : String) (out : GenOutput)
    (hok : generate_report figToHtml now dict path = .ok out) :
    out.dictAfter = dict := by
  rcases generate_report_ok_inv figToHtml now dict path out hok with ⟨parts, hm, -, -, hdict⟩
  rw [hdict]
  refine mapME_pairs_fst _ ?_ dict parts hm
  intro a b hab
  cases hs : sectionHtml figToHtml a.1 a.2 with
  | error e => rw [hs] at hab; exact Except.noConfusion hab
  | ok html =>
    rw [hs] at hab
    simp only [Except.map, Except.ok.injEq] at hab
    rw [← hab]

/-- C10 witness: one full section. -/
theorem claim_C10_input_unchanged_witness :
    (generate_report (fun _ => "") "2026-10-12 00:00"
        [("Sales", ⟨⟨["Date", "Revenue"], [["2024-01-31", "45000"]]⟩, some "line",
          some "Date", some "Revenue"⟩)] "report.html").toOption.map GenOutput.dictAfter
      = some [("Sales", ⟨⟨["Date", "Revenue"], [["2024-01-31", "45000"]]⟩, some "line",
          some "Date", some "Revenue"⟩)] := by
  cases hok : generate_report (fun _ => "") "2026-10-12 00:00"
      [("Sales", ⟨⟨["Date", "Revenue"], [["2024-01-31", "45000"]]⟩, some "line",
        some "Date", some "Revenue"⟩)] "report.html" with
  | error e =>
    have hsome : (generate_report (fun _ => "") "2026-10-12 00:00"
        [("Sales", ⟨⟨["Date", "Revenue"], [["2024-01-31", "45000"]]⟩, some "line",
          some "Date", some "Revenue"⟩)] "report.html").isOk = true := by decide
    rw [hok] at hsome
    exact absurd hsome (not_isOk_error e)
  | ok out =>
    simp [Except.toOption,
      claim_C10_input_unchanged (fun _ => "") "2026-10-12 00:00"
        [("Sales", ⟨⟨["Date", "Revenue"], [["2024-01-31", "45000"]]⟩, some "line",
          some "Date", some "Revenue"⟩)] "report.html" out hok]


/-! ## The `h2` headings of the generated document (C1) -/

theorem occsIn_def (pat s : List Char) : occsIn pat s = occsFrom pat s [] := rfl

theorem sectionHtml_ok_inv (figToHtml : Figure → String) (name : String)
    (sd : SectionData) (html : String)
    (hok : sectionHtml figToHtml name sd = .ok html) :
    ∃ ofig, sectionChart name sd = .ok ofig ∧
      html = secPre ++ name ++ secMid
        ++ (match ofig with
            | some fig => graphContainerHtml (figToHtml fig)
            | none => "")
        ++ tablePre ++ sd.data.to_html false "table" ++ tableSuf := by
  unfold sectionHtml at hok
  cases hc : sectionChart name sd with
  | error e => rw [hc] at hok; exact Except.noConfusion hok
  | ok ofig =>
    rw [hc] at hok
    simp only [Except.map, Except.ok.injEq] at hok
    exact ⟨ofig, rfl, hok.symm⟩

theorem goodPiece_table_openH2 (df : DataFrame) :
    GoodPiece openH2 (df.to_html false "table").data :=
  goodPiece_table_of openH2 (by decide) (by decide) (by decide) (by decide) (by decide)
    (by decide) (by decide) (by decide) (by decide) (by decide) (by decide) (by decide) df

theorem goodPiece_chartPart_openH2 (figToHtml : Figure → String)
    (hch : ∀ fig, pieceNilB openH2 ((figToHtml fig).data) = true) (ofig : Option Figure) :
    GoodPiece openH2 ((match ofig with
      | some fig => graphContainerHtml (figToHtml fig)
      | none => "").data) := by
  cases ofig with
  | none =>
    rw [show ("" : String).data = ([] : List Char) from by decide]
    exact goodPiece_nil openH2
  | some fig =>
    have hdc : (graphContainerHtml (figToHtml fig)).data
        = graphPre.data ++ ((figToHtml fig).data ++ graphSuf.data) := by
      simp [graphContainerHtml, String.data_append]
    rw [hdc]
    exact goodPiece_append (goodPiece_of_pieceNilB (by decide))
      (goodPiece_append (goodPiece_of_pieceNilB (hch fig))
        (goodPiece_of_pieceNilB (by decide)))

theorem sectionHtml_h2 (figToHtml : Figure → String) (name : String) (sd : SectionData)
    (html : String) (hok : sectionHtml figToHtml name sd = .ok html)
    (hname : '<' ∉ name.data)
    (hch : ∀ fig, pieceNilB openH2 ((figToHtml fig).data) = true) :
    ∀ b, (occsFrom openH2 html.data b).map (takeUntil closeH2) = [name.data] := by
  intro b
  rcases sectionHtml_ok_inv figToHtml name sd html hok with ⟨ofig, -, rfl⟩
  simp only [String.data_append, List.append_assoc]
  rw [show secPre.data
      = "\n                <div class=\"section\">\n                    ".data ++ openH2
      from by decide]
  rw [List.append_assoc]
  rw [occsFrom_goodPiece_append (goodPiece_of_pieceNilB (by decide))]
  rw [occsFrom_append]
  rw [occsFrom_self (by decide) (by decide)]
  have hrest : GoodPiece openH2 (name.data ++ (secMid.data
      ++ ((match ofig with
          | some fig => graphContainerHtml (figToHtml fig)
          | none => "").data
        ++ (tablePre.data ++ ((sd.data.to_html false "table").data ++ tableSuf.data))))) :=
    goodPiece_append (goodPiece_of_head (by decide) hname) <|
      goodPiece_append (goodPiece_of_pieceNilB (by decide)) <|
        goodPiece_append (goodPiece_chartPart_openH2 figToHtml hch ofig) <|
          goodPiece_append (goodPiece_of_pieceNilB (by decide)) <|
            goodPiece_append (goodPiece_table_openH2 sd.data)
              (goodPiece_of_pieceNilB (by decide))
  rw [hrest b]
  simp only [List.append_nil, List.map_cons, List.map_nil, List.cons.injEq, and_true]
  simp only [List.append_assoc]
  rw [takeUntil_append_of_occsFrom_nil closeH2 name.data _ (goodPiece_of_head (by decide) hname _)]
  rw [show secMid.data = closeH2 ++ "\n            ".data from by decide]
  simp only [List.append_assoc]
  rw [takeUntil_of_isPrefixOf (by decide) (isPrefixOf_append_self closeH2 _)]
  simp

theorem parts_h2 (figToHtml : Figure → String)
    (hch : ∀ fig, pieceNilB openH2 ((figToHtml fig).data) = true) :
    ∀ (dict : DataDict) (parts : List ((String × SectionData) × String)),
      mapME (fun p => (sectionHtml figToHtml p.1 p.2).map fun h => (p, h)) dict
        = .ok parts →
      (∀ p ∈ dict, '<' ∉ p.1.data) →
      ∀ b, (occsFrom openH2 ((parts.map (·.2)).map String.data).flatten b).map
          (takeUntil closeH2)
        = dict.map (fun p => p.1.data) := by
  intro dict
  induction dict with
  | nil =>
    intro parts h _ b
    simp only [mapME, Except.ok.injEq] at h
    rw [← h]
    rfl
  | cons a l ih =>
    intro parts h hnames b
    rcases mapME_ok_cons _ a l parts h with ⟨b0, bs, hfa, hm, rfl⟩
    cases hs : sectionHtml figToHtml a.1 a.2 with
    | error e => rw [hs] at hfa; exact Except.noConfusion hfa
    | ok html =>
      rw [hs] at hfa
      simp only [Except.map, Except.ok.injEq] at hfa
      subst hfa
      simp only [List.map_cons, List.flatten_cons]
      rw [occsFrom_append, List.map_append]
      rw [sectionHtml_h2 figToHtml a.1 a.2 html hs (hnames a (by simp)) hch _]
      rw [ih bs hm (fun q hq => hnames q (by simp [hq])) b]
      rfl

/-- C1 (corrected): provided section names and the timestamp contain no `<`
character and the chart markup contains no h2 markup, the generated document
contains exactly N h2 heading elements whose texts are the N section names in
input-mapping order. (Unrestricted section names are interpolated unescaped
into the heading and can forge extra h2 elements, so the claim as stated is
false.) -/
theorem claim_C1_h2_headings (figToHtml : Figure → String) (now : String)
    (dict : DataDict) (path : String) (out : GenOutput)
    (hok : generate_report figToHtml now dict path = .ok out)
    (hnames : ∀ p ∈ dict, '<' ∉ (Prod.fst p).data)
    (hnow : '<' ∉ now.data)
    (hch : ∀ fig, pieceNilB openH2 ((figToHtml fig).data) = true) :
    h2Texts out.html = dict.map Prod.fst ∧ (h2Texts out.html).length = dict.length := by
  rcases generate_report_ok_inv figToHtml now dict path out hok with ⟨parts, hm, hhtml, -, -⟩
  have key : (occsIn openH2 out.html.data).map (takeUntil closeH2)
      = dict.map (fun p => p.1.data) := by
    rw [hhtml]
    simp only [String.data_append, List.append_assoc]
    rw [occsIn_def]
    rw [occsFrom_goodPiece_append (goodPiece_of_pieceNilB (by decide))]
    rw [occsFrom_goodPiece_append (goodPiece_of_head (by decide) hnow)]
    rw [occsFrom_goodPiece_append (goodPiece_of_pieceNilB (by decide))]
    rw [joinS_data]
    rw [occsFrom_append, List.map_append]
    rw [parts_h2 figToHtml hch dict parts hm hnames _]
    rw [goodPiece_of_pieceNilB (by decide) ([] : List Char)]
    simp
  have hfirst : h2Texts out.html = dict.map Prod.fst := by
    show ((occsIn openH2 out.html.data).map (takeUntil closeH2)).map
        (fun l => String.mk l) = dict.map Prod.fst
    rw [key, List.map_map]
    rfl
  exact ⟨hfirst, by rw [hfirst]; simp⟩

/-- C1 witness: a one-section report. -/
theorem claim_C1_h2_headings_witness :
    (generate_report (fun _ => "<div>chart</div>") "2026-10-12 00:00"
        [("Sales", ⟨⟨["Date", "Revenue"], [["2024-01-31", "45000"]]⟩, some "line",
          some "Date", some "Revenue"⟩)] "report.html").toOption.map
      (fun o => h2Texts o.html) = some ["Sales"] := by
  cases hok : generate_report (fun _ => "<div>chart</div>") "2026-10-12 00:00"
      [("Sales", ⟨⟨["Date", "Revenue"], [["2024-01-31", "45000"]]⟩, some "line",
        some "Date", some "Revenue"⟩)] "report.html" with
  | error e =>
    have hsome : (generate_report (fun _ => "<div>chart</div>") "2026-10-12 00:00"
        [("Sales", ⟨⟨["Date", "Revenue"], [["2024-01-31", "45000"]]⟩, some "line",
          some "Date", some "Revenue"⟩)] "report.html").isOk = true := by decide
    rw [hok] at hsome
    exact absurd hsome (not_isOk_error e)
  | ok out =>
    have hres := claim_C1_h2_headings (fun _ => "<div>chart</div>") "2026-10-12 00:00"
      [("Sales", ⟨⟨["Date", "Revenue"], [["2024-01-31", "45000"]]⟩, some "line",
        some "Date", some "Revenue"⟩)] "report.html" out hok
      (by decide) (by decide)
      (fun fig => by
        show pieceNilB openH2 ("<div>chart</div>" : String).data = true
        decide)
    simp [Except.toOption, hres.1]

/-- C1 counterexample: a section name containing h2 markup forges a second
heading, so the document's h2 texts are not the section names. -/
theorem claim_C1_cex :
    ¬ ((generate_report (fun _ => "") "2026-10-12 00:00"
        [("A</h2><h2>B", ⟨⟨["x"], []⟩, none, none, none⟩)] "report.html").toOption.map
      (fun o => h2Texts o.html) = some ["A</h2><h2>B"]) := by decide



/-! ## Chart containers of the generated document (C2) -/

theorem goodPiece_table_containers (df : DataFrame) :
    GoodPiece graphContainerOpen.data (df.to_html false "table").data :=
  goodPiece_table_of graphContainerOpen.data (by decide) (by decide) (by decide) (by decide)
    (by decide) (by decide) (by decide) (by decide) (by decide) (by decide) (by decide)
    (by decide) df

theorem sectionHtml_containers (figToHtml : Figure → String) (name : String)
    (sd : SectionData) (html : String)
    (hok : sectionHtml figToHtml name sd = .ok html)
    (hname : '<' ∉ name.data)
    (hch : ∀ fig, pieceNilB graphContainerOpen.data ((figToHtml fig).data) = true) :
    ∀ b, (occsFrom graphContainerOpen.data html.data b).length
      = if truthy sd.x_col && truthy sd.y_col then 1 else 0 := by
  intro b
  rcases sectionHtml_ok_inv figToHtml name sd html hok with ⟨ofig, hc, rfl⟩
  cases hcond : truthy sd.x_col && truthy sd.y_col with
  | false =>
    have hofig : ofig = none := by
      unfold sectionChart at hc
      rw [hcond] at hc
      simp only [Bool.false_eq_true, if_false, Except.ok.injEq] at hc
      exact hc.symm
    subst hofig
    have hall : GoodPiece graphContainerOpen.data (secPre.data ++ (name.data
        ++ (secMid.data ++ (("" : String).data ++ (tablePre.data
        ++ ((sd.data.to_html false "table").data ++ tableSuf.data)))))) :=
      goodPiece_append (goodPiece_of_pieceNilB (by decide)) <|
        goodPiece_append (goodPiece_of_head (by decide) hname) <|
          goodPiece_append (goodPiece_of_pieceNilB (by decide)) <|
            goodPiece_append (by
              rw [show ("" : String).data = ([] : List Char) from by decide]
              exact goodPiece_nil _) <|
              goodPiece_append (goodPiece_of_pieceNilB (by decide)) <|
                goodPiece_append (goodPiece_table_containers sd.data)
                  (goodPiece_of_pieceNilB (by decide))
    simp only [String.data_append, List.append_assoc]
    rw [hall b]
    rfl
  | true =>
    have hofig : ∃ fig, ofig = some fig := by
      unfold sectionChart at hc
      rw [hcond] at hc
      simp only [if_true] at hc
      cases hcf : create_fig sd.data (sd.x_col.getD "") (sd.y_col.getD "") name
          (sd.graph_type.getD "line") with
      | error e => rw [hcf] at hc; exact Except.noConfusion hc
      | ok fig =>
        rw [hcf] at hc
        simp only [Except.map, Except.ok.injEq] at hc
        exact ⟨fig, hc.symm⟩
    rcases hofig with ⟨fig, rfl⟩
    simp only [String.data_append, List.append_assoc]
    rw [occsFrom_goodPiece_append (goodPiece_of_pieceNilB (by decide))]
    rw [occsFrom_goodPiece_append (goodPiece_of_head (by decide) hname)]
    rw [occsFrom_goodPiece_append (goodPiece_of_pieceNilB (by decide))]
    have hgc : (graphContainerHtml (figToHtml fig)).data
        = "\n                    ".data ++ (graphContainerOpen.data
          ++ ("\n                        ".data
            ++ ((figToHtml fig).data ++ graphSuf.data))) := by
      simp only [graphContainerHtml, String.data_append, List.append_assoc]
      rw [show graphPre.data = "\n                    ".data ++ (graphContainerOpen.data
          ++ "\n                        ".data) from by decide]
      simp only [List.append_assoc]
    rw [hgc]
    simp only [List.append_assoc]
    rw [occsFrom_goodPiece_append (goodPiece_of_pieceNilB (by decide))]
    rw [occsFrom_append]
    rw [occsFrom_self (by decide) (by decide)]
    have hrest : GoodPiece graphContainerOpen.data ("\n                        ".data
        ++ ((figToHtml fig).data ++ (graphSuf.data ++ (tablePre.data
          ++ ((sd.data.to_html false "table").data ++ tableSuf.data))))) :=
      goodPiece_append (goodPiece_of_pieceNilB (by decide)) <|
        goodPiece_append (goodPiece_of_pieceNilB (hch fig)) <|
          goodPiece_append (goodPiece_of_pieceNilB (by decide)) <|
            goodPiece_append (goodPiece_of_pieceNilB (by decide)) <|
              goodPiece_append (goodPiece_table_containers sd.data)
                (goodPiece_of_pieceNilB (by decide))
    rw [hrest b]
    rfl

theorem parts_containers (figToHtml : Figure → String)
    (hch : ∀ fig, pieceNilB graphContainerOpen.data ((figToHtml fig).data) = true) :
    ∀ (dict : DataDict) (parts : List ((String × SectionData) × String)),
      mapME (fun p => (sectionHtml figToHtml p.1 p.2).map fun h => (p, h)) dict
        = .ok parts →
      (∀ p ∈ dict, '<' ∉ p.1.data) →
      ∀ b, (occsFrom graphContainerOpen.data
          ((parts.map (·.2)).map String.data).flatten b).length
        = (dict.filter (fun p => truthy p.2.x_col && truthy p.2.y_col)).length := by
  intro dict
  induction dict with
  | nil =>
    intro parts h _ b
    simp only [mapME, Except.ok.injEq] at h
    rw [← h]
    rfl
  | cons a l ih =>
    intro parts h hnames b
    rcases mapME_ok_cons _ a l parts h with ⟨b0, bs, hfa, hm, rfl⟩
    cases hs : sectionHtml figToHtml a.1 a.2 with
    | error e => rw [hs] at hfa; exact Except.noConfusion hfa
    | ok html =>
      rw [hs] at hfa
      simp only [Except.map, Except.ok.injEq] at hfa
      subst hfa
      simp only [List.map_cons, List.flatten_cons]
      rw [occsFrom_append, List.length_append]
      rw [sectionHtml_containers figToHtml a.1 a.2 html hs (hnames a (by simp)) hch _]
      rw [ih bs hm (fun q hq => hnames q (by simp [hq])) b]
      cases hcond : truthy a.2.x_col && truthy a.2.y_col with
      | false => simp [List.filter_cons, hcond]
      | true => simp [List.filter_cons, hcond, Nat.add_comm]

/-- C2 (corrected): with section names and timestamp free of `<` and chart
markup free of container markup, a section produces exactly one
`graph-container` div when both `x_col` and `y_col` are present AND non-empty
(Python truthiness), and zero otherwise; the document total is the number of
such sections. A present-but-empty column is falsy and yields no chart, so
the claim as stated (presence alone) is false. -/
theorem claim_C2_graph_containers (figToHtml : Figure → String) (now : String)
    (dict : DataDict) (path : String) (out : GenOutput)
    (hok : generate_report figToHtml now dict path = .ok out)
    (hnames : ∀ p ∈ dict, '<' ∉ (Prod.fst p).data)
    (hnow : '<' ∉ now.data)
    (hch : ∀ fig, pieceNilB graphContainerOpen.data ((figToHtml fig).data) = true) :
    (∀ p ∈ dict, ∀ html, sectionHtml figToHtml p.1 p.2 = .ok html →
      graphContainerCount html
        = if truthy p.2.x_col && truthy p.2.y_col then 1 else 0) ∧
    graphContainerCount out.html
      = (dict.filter (fun p => truthy p.2.x_col && truthy p.2.y_col)).length := by
  constructor
  · intro p hp html hsec
    have hone := sectionHtml_containers figToHtml p.1 p.2 html hsec (hnames p hp) hch []
    simpa [graphContainerCount, occsIn_def] using hone
  · rcases generate_report_ok_inv figToHtml now dict path out hok with ⟨parts, hm, hhtml, -, -⟩
    show (occsIn graphContainerOpen.data out.html.data).length = _
    rw [hhtml]
    simp only [String.data_append, List.append_assoc]
    rw [occsIn_def]
    rw [occsFrom_goodPiece_append (goodPiece_of_pieceNilB (by decide))]
    rw [occsFrom_goodPiece_append (goodPiece_of_head (by decide) hnow)]
    rw [occsFrom_goodPiece_append (goodPiece_of_pieceNilB (by decide))]
    rw [joinS_data, occsFrom_append, List.length_append]
    rw [parts_containers figToHtml hch dict parts hm hnames _]
    rw [goodPiece_of_pieceNilB (by decide) ([] : List Char)]
    simp

/-- C2 witness: one chart section and one chartless section give one container. -/
theorem claim_C2_graph_containers_witness :
    (generate_report (fun _ => "<div>chart</div>") "2026-10-12 00:00"
        [("Sales", ⟨⟨["Date", "Revenue"], [["2024-01-31", "45000"]]⟩, some "line",
          some "Date", some "Revenue"⟩),
         ("Inventory", ⟨⟨["Product"], [["Widget A"]]⟩, none, none, none⟩)]
        "report.html").toOption.map
      (fun o => graphContainerCount o.html) = some 1 := by
  cases hok : generate_report (fun _ => "<div>chart</div>") "2026-10-12 00:00"
      [("Sales", ⟨⟨["Date", "Revenue"], [["2024-01-31", "45000"]]⟩, some "line",
        some "Date", some "Revenue"⟩),
       ("Inventory", ⟨⟨["Product"], [["Widget A"]]⟩, none, none, none⟩)]
      "report.html" with
  | error e =>
    have hsome : (generate_report (fun _ => "<div>chart</div>") "2026-10-12 00:00"
        [("Sales", ⟨⟨["Date", "Revenue"], [["2024-01-31", "45000"]]⟩, some "line",
          some "Date", some "Revenue"⟩),
         ("Inventory", ⟨⟨["Product"], [["Widget A"]]⟩, none, none, none⟩)]
        "report.html").isOk = true := by decide
    rw [hok] at hsome
    exact absurd hsome (not_isOk_error e)
  | ok out =>
    have hres := claim_C2_graph_containers (fun _ => "<div>chart</div>") "2026-10-12 00:00"
      [("Sales", ⟨⟨["Date", "Revenue"], [["2024-01-31", "45000"]]⟩, some "line",
        some "Date", some "Revenue"⟩),
       ("Inventory", ⟨⟨["Product"], [["Widget A"]]⟩, none, none, none⟩)]
      "report.html" out hok (by decide) (by decide)
      (fun fig => by
        show pieceNilB graphContainerOpen.data ("<div>chart</div>" : String).data = true
        decide)
    have hlen : (([("Sales", (⟨⟨["Date", "Revenue"], [["2024-01-31", "45000"]]⟩, some "line",
        some "Date", some "Revenue"⟩ : SectionData)),
       ("Inventory", ⟨⟨["Product"], [["Widget A"]]⟩, none, none, none⟩)] : DataDict).filter
        (fun p => truthy p.2.x_col && truthy p.2.y_col)).length = 1 := by decide
    simp [Except.toOption, hres.2, hlen]

/-- C2 counterexample: `x_col` present as the empty string and `y_col` present
and non-empty: the claim demands one chart container for the section; the code
treats the empty string as absent and renders none. -/
theorem claim_C2_cex :
    ¬ ((generate_report (fun _ => "") "2026-10-12 00:00"
        [("S", ⟨⟨["", "y"], [["a", "b"]]⟩, none, some "", some "y"⟩)]
        "report.html").toOption.map
      (fun o => graphContainerCount o.html) = some 1) := by decide


/-! ## Table round-trip extraction (C3) -/

theorem mk_data (s : String) : String.mk s.data = s := rfl

theorem lt_not_mem_escapeHtml (s : String) : '<' ∉ (escapeHtml s).data :=
  lt_not_mem_escapeL s.data

theorem goodPiece_tdcells_of (pat : List Char) (hhead : pat.head? = some '<')
    (h2 : pieceNilB pat "      <td>".data = true)
    (h3 : pieceNilB pat "</td>\n".data = true) (r : List String) :
    GoodPiece pat (joinS (r.map tdCellHtml)).data := by
  refine goodPiece_joinS ?_
  intro s hs
  rcases List.mem_map.mp hs with ⟨v, -, rfl⟩
  have hd : (tdCellHtml v).data
      = "      <td>".data ++ ((escapeHtml v).data ++ "</td>\n".data) := by
    simp [tdCellHtml, String.data_append]
  rw [hd]
  exact goodPiece_append (goodPiece_of_pieceNilB h2)
    (goodPiece_append (goodPiece_of_head hhead (lt_not_mem_escapeHtml v))
      (goodPiece_of_pieceNilB h3))

theorem goodPiece_thcells_of (pat : List Char) (hhead : pat.head? = some '<')
    (h1 : pieceNilB pat "      <th>".data = true)
    (h2 : pieceNilB pat "</th>\n".data = true) (cs : List String) :
    GoodPiece pat (joinS (cs.map thCellHtml)).data := by
  refine goodPiece_joinS ?_
  intro s hs
  rcases List.mem_map.mp hs with ⟨c, -, rfl⟩
  have hd : (thCellHtml c).data
      = "      <th>".data ++ ((escapeHtml c).data ++ "</th>\n".data) := by
    simp [thCellHtml, String.data_append]
  rw [hd]
  exact goodPiece_append (goodPiece_of_pieceNilB h1)
    (goodPiece_append (goodPiece_of_head hhead (lt_not_mem_escapeHtml c))
      (goodPiece_of_pieceNilB h2))

theorem goodPiece_rows_of (pat : List Char) (hhead : pat.head? = some '<')
    (h1 : pieceNilB pat "    <tr>\n".data = true)
    (h2 : pieceNilB pat "      <td>".data = true)
    (h3 : pieceNilB pat "</td>\n".data = true)
    (h4 : pieceNilB pat "    </tr>\n".data = true) (rows : List (List String)) :
    GoodPiece pat (joinS (rows.map (trRowHtml none))).data := by
  refine goodPiece_joinS ?_
  intro s hs
  rcases List.mem_map.mp hs with ⟨r, -, rfl⟩
  have hd : (trRowHtml none r).data
      = "    <tr>\n".data ++ ((joinS (r.map tdCellHtml)).data ++ "    </tr>\n".data) := by
    simp [trRowHtml, String.data_append]
  rw [hd]
  exact goodPiece_append (goodPiece_of_pieceNilB h1)
    (goodPiece_append (goodPiece_tdcells_of pat hhead h2 h3 r) (goodPiece_of_pieceNilB h4))

theorem th_cells_extract (cs : List String) : ∀ b,
    ((occsFrom thOpenL (joinS (cs.map thCellHtml)).data b).map (takeUntil thCloseL)).map
      (fun l => String.mk (unescapeL l)) = cs := by
  induction cs with
  | nil =>
    intro b
    rw [show (joinS (([] : List String).map thCellHtml)).data = ([] : List Char)
      from by decide]
    rfl
  | cons c cs ih =>
    intro b
    have hdc : (joinS ((c :: cs).map thCellHtml)).data
        = "      ".data ++ (thOpenL ++ ((escapeHtml c).data
          ++ (thCloseL ++ ("\n".data ++ (joinS (cs.map thCellHtml)).data)))) := by
      simp [joinS, thCellHtml, String.data_append, thOpenL, thCloseL, List.append_assoc]
    rw [hdc]
    rw [occsFrom_goodPiece_append (goodPiece_of_pieceNilB (by decide))]
    rw [occsFrom_append, occsFrom_self (by decide) (by decide)]
    rw [occsFrom_goodPiece_append
      (goodPiece_of_head (by decide) (lt_not_mem_escapeHtml c)
        : GoodPiece thOpenL (escapeHtml c).data)]
    rw [occsFrom_goodPiece_append (goodPiece_of_pieceNilB (by decide)
        : GoodPiece thOpenL thCloseL)]
    rw [occsFrom_goodPiece_append (goodPiece_of_pieceNilB (by decide)
        : GoodPiece thOpenL "\n".data)]
    rw [List.map_append, List.map_append, ih b]
    simp only [List.map_cons, List.map_nil, List.singleton_append, List.cons.injEq, and_true]
    simp only [List.append_assoc]
    rw [takeUntil_append_of_occsFrom_nil thCloseL (escapeHtml c).data _
      ((goodPiece_of_head (by decide) (lt_not_mem_escapeHtml c)
        : GoodPiece thCloseL (escapeHtml c).data) _)]
    rw [takeUntil_of_isPrefixOf (by decide) (isPrefixOf_append_self thCloseL _)]
    rw [List.append_nil]
    rw [show unescapeL (escapeHtml c).data = c.data from unescape_escape c.data]

theorem td_cells_extract (r : List String) : ∀ b,
    ((occsFrom tdOpenL (joinS (r.map tdCellHtml)).data b).map (takeUntil tdCloseL)).map
      (fun l => String.mk (unescapeL l)) = r := by
  induction r with
  | nil =>
    intro b
    rw [show (joinS (([] : List String).map tdCellHtml)).data = ([] : List Char)
      from by decide]
    rfl
  | cons v r ih =>
    intro b
    have hdc : (joinS ((v :: r).map tdCellHtml)).data
        = "      ".data ++ (tdOpenL ++ ((escapeHtml v).data
          ++ (tdCloseL ++ ("\n".data ++ (joinS (r.map tdCellHtml)).data)))) := by
      simp [joinS, tdCellHtml, String.data_append, tdOpenL, tdCloseL, List.append_assoc]
    rw [hdc]
    rw [occsFrom_goodPiece_append (goodPiece_of_pieceNilB (by decide))]
    rw [occsFrom_append, occsFrom_self (by decide) (by decide)]
    rw [occsFrom_goodPiece_append
      (goodPiece_of_head (by decide) (lt_not_mem_escapeHtml v)
        : GoodPiece tdOpenL (escapeHtml v).data)]
    rw [occsFrom_goodPiece_append (goodPiece_of_pieceNilB (by decide)
        : GoodPiece tdOpenL tdCloseL)]
    rw [occsFrom_goodPiece_append (goodPiece_of_pieceNilB (by decide)
        : GoodPiece tdOpenL "\n".data)]
    rw [List.map_append, List.map_append, ih b]
    simp only [List.map_cons, List.map_nil, List.singleton_append, List.cons.injEq, and_true]
    simp only [List.append_assoc]
    rw [takeUntil_append_of_occsFrom_nil tdCloseL (escapeHtml v).data _
      ((goodPiece_of_head (by decide) (lt_not_mem_escapeHtml v)
        : GoodPiece tdCloseL (escapeHtml v).data) _)]
    rw [takeUntil_of_isPrefixOf (by decide) (isPrefixOf_append_self tdCloseL _)]
    rw [List.append_nil]
    rw [show unescapeL (escapeHtml v).data = v.data from unescape_escape v.data]

theorem isPrefixOf_head_ne (pat : List Char) (c : Char) (t : List Char) (p : Char)
    (hp : pat.head? = some p) (hne : p ≠ c) : pat.isPrefixOf (c :: t) = false := by
  rcases pat with _ | ⟨q, qs⟩
  · simp at hp
  · have hq : q = p := by simpa using hp
    subst hq
    exact isPrefixOf_cons_eq_false hne

theorem occsFrom_cons_ne (pat : List Char) (c : Char) (x b : List Char) (p : Char)
    (hp : pat.head? = some p) (hne : p ≠ c) :
    occsFrom pat (c :: x) b = occsFrom pat x b := by
  simp only [occsFrom, List.cons_append]
  rw [isPrefixOf_head_ne pat c (x ++ b) p hp hne]
  simp

theorem row_chunk_eval (cells tail : List Char) (hcells : GoodPiece trCloseL cells) :
    takeUntil trCloseL ('\n' :: (cells ++ ' ' :: ' ' :: ' ' :: ' ' :: (trCloseL ++ tail)))
      = '\n' :: (cells ++ [' ', ' ', ' ', ' ']) := by
  have h1 : trCloseL.isPrefixOf
      ('\n' :: (cells ++ ' ' :: ' ' :: ' ' :: ' ' :: (trCloseL ++ tail))) = false :=
    isPrefixOf_head_ne trCloseL '\n' _ '<' (by decide) (by decide)
  rw [takeUntil, h1]
  simp only [Bool.false_eq_true, if_false]
  rw [show ' ' :: ' ' :: ' ' :: ' ' :: (trCloseL ++ tail)
      = [' ', ' ', ' ', ' '] ++ (trCloseL ++ tail) from rfl]
  rw [takeUntil_append_of_occsFrom_nil trCloseL cells _ (hcells _)]
  rw [takeUntil_append_of_occsFrom_nil trCloseL [' ', ' ', ' ', ' '] _
    ((goodPiece_of_pieceNilB (by decide) : GoodPiece trCloseL [' ', ' ', ' ', ' ']) _)]
  rw [takeUntil_of_isPrefixOf (by decide) (isPrefixOf_append_self trCloseL tail)]
  simp

theorem rows_extract (rows : List (List String)) : ∀ b,
    ((occsFrom trOpenL (joinS (rows.map (trRowHtml none))).data b).map
        (takeUntil trCloseL)).map
      (fun chunk => ((occsIn tdOpenL chunk).map (takeUntil tdCloseL)).map
        (fun l => String.mk (unescapeL l))) = rows := by
  induction rows with
  | nil =>
    intro b
    rw [show (joinS (([] : List (List String)).map (trRowHtml none))).data = ([] : List Char)
      from by decide]
    rfl
  | cons r rest ih =>
    intro b
    have hdc : (joinS ((r :: rest).map (trRowHtml none))).data
        = "    ".data ++ (trOpenL ++ ("\n".data ++ ((joinS (r.map tdCellHtml)).data
          ++ ("    ".data ++ (trCloseL ++ ("\n".data
            ++ (joinS (rest.map (trRowHtml none))).data)))))) := by
      simp [joinS, trRowHtml, String.data_append, trOpenL, trCloseL, List.append_assoc]
    rw [hdc]
    rw [occsFrom_goodPiece_append (goodPiece_of_pieceNilB (by decide))]
    rw [occsFrom_append, occsFrom_self (by decide) (by decide)]
    rw [occsFrom_goodPiece_append (goodPiece_of_pieceNilB (by decide)
        : GoodPiece trOpenL "\n".data)]
    rw [occsFrom_goodPiece_append (goodPiece_tdcells_of trOpenL (by decide) (by decide)
      (by decide) r)]
    rw [occsFrom_goodPiece_append (goodPiece_of_pieceNilB (by decide)
        : GoodPiece trOpenL "    ".data)]
    rw [occsFrom_goodPiece_append (goodPiece_of_pieceNilB (by decide)
        : GoodPiece trOpenL trCloseL)]
    rw [occsFrom_goodPiece_append (goodPiece_of_pieceNilB (by decide)
        : GoodPiece trOpenL "\n".data)]
    rw [List.map_append, List.map_append, ih b]
    simp only [List.map_cons, List.map_nil, List.singleton_append, List.cons.injEq, and_true]
    simp only [List.append_assoc, List.cons_append, List.nil_append]
    rw [row_chunk_eval (joinS (r.map tdCellHtml)).data _
      (goodPiece_tdcells_of trCloseL (by decide) (by decide) (by decide) r)]
    rw [occsIn_def]
    rw [occsFrom_cons_ne tdOpenL '\n' _ _ '<' (by decide) (by decide)]
    rw [occsFrom_append]
    rw [(goodPiece_of_pieceNilB (by decide)
      : GoodPiece tdOpenL [' ', ' ', ' ', ' ']) ([] : List Char)]
    simp only [List.append_nil]
    rw [td_cells_extract r _]

theorem sectionHtml_ok_shape (figToHtml : Figure → String) (name : String)
    (sd : SectionData) (html : String)
    (hok : sectionHtml figToHtml name sd = .ok html) :
    ∃ chartPart, html = secPre ++ name ++ secMid ++ chartPart ++ tablePre
      ++ sd.data.to_html false "table" ++ tableSuf := by
  rcases sectionHtml_ok_inv figToHtml name sd html hok with ⟨ofig, -, rfl⟩
  exact ⟨_, rfl⟩

theorem headerCells_to_html (df : DataFrame) :
    headerCells (df.to_html false "table") = df.columns := by
  show ((occsIn thOpenL (df.to_html false "table").data).map (takeUntil thCloseL)).map
      (fun l => String.mk (unescapeL l)) = df.columns
  rw [to_html_false_decomp df "table"]
  simp only [String.data_append, List.append_assoc]
  rw [occsIn_def]
  rw [occsFrom_goodPiece_append (goodPiece_of_pieceNilB (by decide))]
  rw [occsFrom_goodPiece_append (goodPiece_of_pieceNilB (by decide))]
  rw [occsFrom_goodPiece_append (goodPiece_of_pieceNilB (by decide))]
  rw [occsFrom_append]
  have hrest : GoodPiece thOpenL ("    </tr>\n  </thead>\n  <tbody>\n".data
      ++ ((joinS (df.rows.map (trRowHtml none))).data ++ "  </tbody>\n</table>".data)) :=
    goodPiece_append (goodPiece_of_pieceNilB (by decide)) <|
      goodPiece_append (goodPiece_rows_of thOpenL (by decide) (by decide) (by decide)
        (by decide) (by decide) df.rows) (goodPiece_of_pieceNilB (by decide))
  rw [hrest []]
  simp only [List.append_nil]
  rw [th_cells_extract df.columns _]

theorem bodyRows_to_html (df : DataFrame) :
    bodyRows (df.to_html false "table") = df.rows := by
  show ((occsIn trOpenL (df.to_html false "table").data).map (takeUntil trCloseL)).map
      (fun chunk => ((occsIn tdOpenL chunk).map (takeUntil tdCloseL)).map
        (fun l => String.mk (unescapeL l))) = df.rows
  rw [to_html_false_decomp df "table"]
  simp only [String.data_append, List.append_assoc]
  rw [occsIn_def]
  rw [occsFrom_goodPiece_append (goodPiece_of_pieceNilB (by decide))]
  rw [occsFrom_goodPiece_append (goodPiece_of_pieceNilB (by decide))]
  rw [occsFrom_goodPiece_append (goodPiece_of_pieceNilB (by decide))]
  rw [occsFrom_goodPiece_append (goodPiece_thcells_of trOpenL (by decide) (by decide)
    (by decide) df.columns)]
  rw [occsFrom_goodPiece_append (goodPiece_of_pieceNilB (by decide))]
  rw [occsFrom_append]
  rw [(goodPiece_of_pieceNilB (by decide)
    : GoodPiece trOpenL "  </tbody>\n</table>".data) ([] : List Char)]
  simp only [List.append_nil]
  rw [rows_extract df.rows _]

/-- C3 (confirmed): the table markup rendered for a section round-trips the
table: the header row's cells are exactly the column names in order, there is
one body row per data row (so the counts agree), every cell value is rendered
(HTML-escaped) in its cell and decodes back to the original text, no row-index
column is present, and the per-section html emitted by `generate_report`
contains exactly this markup. -/
theorem claim_C3_table_roundtrip (df : DataFrame) :
    headerCells (df.to_html false "table") = df.columns ∧
    bodyRows (df.to_html false "table") = df.rows ∧
    (bodyRows (df.to_html false "table")).length = df.rows.length ∧
    (∀ (figToHtml : Figure → String) (name : String) (sd : SectionData) (html : String),
      sectionHtml figToHtml name sd = .ok html →
      ∃ pre post, html = pre ++ sd.data.to_html false "table" ++ post) := by
  refine ⟨headerCells_to_html df, bodyRows_to_html df, by rw [bodyRows_to_html df], ?_⟩
  intro figToHtml name sd html hok
  rcases sectionHtml_ok_shape figToHtml name sd html hok with ⟨chartPart, rfl⟩
  exact ⟨secPre ++ name ++ secMid ++ chartPart ++ tablePre, tableSuf, rfl⟩

/-- C3 witness: the Date/Revenue example table. -/
theorem claim_C3_table_roundtrip_witness :
    headerCells ((⟨["Date", "Revenue"],
        [["2024-01-31", "45000"], ["2024-02-29", "52000"]]⟩ : DataFrame).to_html
      false "table") = ["Date", "Revenue"] ∧
    bodyRows ((⟨["Date", "Revenue"],
        [["2024-01-31", "45000"], ["2024-02-29", "52000"]]⟩ : DataFrame).to_html
      false "table") = [["2024-01-31", "45000"], ["2024-02-29", "52000"]] :=
  ⟨(claim_C3_table_roundtrip ⟨["Date", "Revenue"],
      [["2024-01-31", "45000"], ["2024-02-29", "52000"]]⟩).1,
   (claim_C3_table_roundtrip ⟨["Date", "Revenue"],
      [["2024-01-31", "45000"], ["2024-02-29", "52000"]]⟩).2.1⟩

end Report
